import Mathlib

/-!
Shallow embedding of the macdive-toolbox taxonomy core (the `toolbox` crate):
the display-name normalization (`TaxonGroupName::normalize`), the
rank-climbing classifier (`Taxon::group_name` in
`toolbox/src/inaturalist/types.rs`), the taxon cache helpers
(`toolbox/src/inaturalist/helpers.rs`) and the name-verification helper
(`toolbox/src/helpers/globalnames.rs`).

Rust `String` values are modelled as Lean `String`; character-level
operations (lowercasing, trimming) act on the underlying `List Char` and
model the ASCII fragment of Rust's Unicode case handling, which covers
every name the program manipulates.
-/

namespace MacdiveToolbox

/-- Model of Rust `str::to_lowercase` restricted to ASCII (per-character
lowercasing). -/
def toLowerList (s : List Char) : List Char :=
  s.map Char.toLower

/-- One bounded pass of Rust `str::trim_start_matches(pat)`: repeatedly
remove the prefix `pat` while it is present.  The fuel argument makes the
recursion structural; `pat` is always a non-empty literal at call sites, so
`s.length` steps suffice. -/
def trimStartAllAux (pat : List Char) : Nat → List Char → List Char
  | 0, s => s
  | fuel + 1, s =>
    if pat ≠ [] ∧ pat.isPrefixOf s then trimStartAllAux pat fuel (s.drop pat.length) else s

/-- Rust `str::trim_start_matches(pat)`: all successive occurrences of the
prefix `pat` removed. -/
def trimStartAll (pat s : List Char) : List Char :=
  trimStartAllAux pat s.length s

/-- Rust `str::trim_end_matches(pat)` for a string pattern: all successive
occurrences of the suffix `pat` removed. -/
def trimEndAll (pat s : List Char) : List Char :=
  (trimStartAll pat.reverse s.reverse).reverse

/-- Rust `str::trim`: leading and trailing whitespace removed. -/
def trimList (s : List Char) : List Char :=
  ((s.dropWhile Char.isWhitespace).reverse.dropWhile Char.isWhitespace).reverse

/-- Rust `str::trim_end_matches(c)` for a `char` pattern: all trailing
occurrences of `c` removed. -/
def trimEndChar (c : Char) (s : List Char) : List Char :=
  (s.reverse.dropWhile (· == c)).reverse

/-- Model of `change_case::title_case` (an external crate): the first
character of every space-separated word is uppercased and the remaining
characters lowercased.  `up` records whether the next character starts a
word. -/
def titleCaseGo : Bool → List Char → List Char
  | _, [] => []
  | up, c :: cs => (if up then c.toUpper else c.toLower) :: titleCaseGo (c == ' ') cs

/-- `change_case::title_case`, starting at a word boundary. -/
def titleCaseList (s : List Char) : List Char :=
  titleCaseGo true s

/-- The token-stripping chain of `TaxonGroupName::normalize` after the
initial lowercasing: `trim_start_matches("true")`,
`trim_start_matches("false")`, `trim_start_matches("typical")`,
`trim_end_matches("and allies")`, `trim`, `trim_end_matches(',')`. -/
def stripPipeline (w : List Char) : List Char :=
  trimEndChar ','
    (trimList
      (trimEndAll "and allies".toList
        (trimStartAll "typical".toList
          (trimStartAll "false".toList
            (trimStartAll "true".toList w)))))

/-- The stripping pipeline inside `TaxonGroupName::normalize`, i.e.
everything before the final `title_case` call: `to_lowercase` followed by
the token-stripping chain. -/
def normalizeCore (s : String) : String :=
  ⟨stripPipeline (toLowerList s.toList)⟩

/-- `TaxonGroupName::normalize` in `toolbox/src/inaturalist/types.rs`:
the stripping pipeline followed by `change_case::title_case`. -/
def normalize (s : String) : String :=
  ⟨titleCaseList (normalizeCore s).toList⟩

/-- `TaxonGroupName` (`toolbox/src/inaturalist/types.rs`): one variant per
recognized rank, each carrying the preferred common name, plus
`Unspecified` and `Custom`. -/
inductive TaxonGroupName where
  | Unspecified : TaxonGroupName
  | Custom : String → TaxonGroupName
  | Phylum : String → TaxonGroupName
  | Subphylum : String → TaxonGroupName
  | Class : String → TaxonGroupName
  | Subclass : String → TaxonGroupName
  | Infraclass : String → TaxonGroupName
  | Superorder : String → TaxonGroupName
  | Order : String → TaxonGroupName
  | Suborder : String → TaxonGroupName
  | Infraorder : String → TaxonGroupName
  | Parvorder : String → TaxonGroupName
  | Superfamily : String → TaxonGroupName
  | Subfamily : String → TaxonGroupName
  | Family : String → TaxonGroupName
  | Genus : String → TaxonGroupName
  deriving DecidableEq

/-- ASCII model of Rust `String::to_lowercase` at the `String` level. -/
def lowerString (s : String) : String :=
  ⟨toLowerList s.toList⟩

/-- The hand-written `PartialEq for TaxonGroupName`: equal only within the
same variant, case-insensitively on the carried text. -/
def rustEq : TaxonGroupName → TaxonGroupName → Bool
  | .Unspecified, .Unspecified => true
  | .Custom l, .Custom r => lowerString l == lowerString r
  | .Phylum l, .Phylum r => lowerString l == lowerString r
  | .Subphylum l, .Subphylum r => lowerString l == lowerString r
  | .Class l, .Class r => lowerString l == lowerString r
  | .Subclass l, .Subclass r => lowerString l == lowerString r
  | .Infraclass l, .Infraclass r => lowerString l == lowerString r
  | .Superorder l, .Superorder r => lowerString l == lowerString r
  | .Order l, .Order r => lowerString l == lowerString r
  | .Suborder l, .Suborder r => lowerString l == lowerString r
  | .Infraorder l, .Infraorder r => lowerString l == lowerString r
  | .Parvorder l, .Parvorder r => lowerString l == lowerString r
  | .Superfamily l, .Superfamily r => lowerString l == lowerString r
  | .Subfamily l, .Subfamily r => lowerString l == lowerString r
  | .Family l, .Family r => lowerString l == lowerString r
  | .Genus l, .Genus r => lowerString l == lowerString r
  | _, _ => false

/-- `impl Display for TaxonGroupName`: `Unspecified` prints as
`"Unknown"`, every other variant prints its normalized text. -/
def display : TaxonGroupName → String
  | .Unspecified => "Unknown"
  | .Custom n => normalize n
  | .Phylum n => normalize n
  | .Subphylum n => normalize n
  | .Class n => normalize n
  | .Subclass n => normalize n
  | .Infraclass n => normalize n
  | .Superorder n => normalize n
  | .Order n => normalize n
  | .Suborder n => normalize n
  | .Infraorder n => normalize n
  | .Parvorder n => normalize n
  | .Superfamily n => normalize n
  | .Subfamily n => normalize n
  | .Family n => normalize n
  | .Genus n => normalize n

/-- Association-list lookup modelling `HashMap::get` (keys are unique in a
`HashMap`; the first match is returned). -/
def lookupAssoc {α : Type} (m : List (String × α)) (k : String) : Option α :=
  (m.find? (fun p => p.1 == k)).map (·.2)

/-- `CritterCategoryConfig`: `group_names` and `preferred_higher_ranks`
follow the declaration in `src/types.rs` (the species-level rename table
keyed by display string, and the preferred-higher-ranks table keyed by rank
name).  Modelled from the spec: the `ignored_common_names` field, keyed by
rank name with a set of common names to skip — the spec's §3
`OverridePolicy` lists it, and the toolbox crate's `types` module is not
among the provided sources; the classifier below (translated from
`toolbox/src/inaturalist/types.rs`) never reads it. -/
structure CritterCategoryConfig where
  group_names : List (String × String)
  preferred_higher_ranks : List (String × List TaxonGroupName)
  ignored_common_names : List (String × List String)

/-- `TaxonGroupName::prefer_higher_common_name`: whether the current group
value occurs (via the case-insensitive `PartialEq`) in
`preferred_higher_ranks[class]`. -/
def preferHigherCommonName (g : TaxonGroupName) (cls : String)
    (overrides : CritterCategoryConfig) : Bool :=
  match lookupAssoc overrides.preferred_higher_ranks cls with
  | some list => list.any (fun x => rustEq x g)
  | none => false

/-- The fields of an iNaturalist `Taxon` consumed by this core
(`toolbox/src/inaturalist/types/models.rs`); the remaining descriptive
fields are passed through opaquely and never inspected. -/
structure Taxon where
  id : Int
  name : Option String
  preferred_common_name : Option String
  rank : Option String
  ancestor_ids : Option (List Int)
  deriving DecidableEq

/-- `if let Some(name) = ancestor.preferred_common_name { group = f(name) }`:
assign the rank variant when the ancestor carries a common name, otherwise
leave the group unchanged. -/
def applyCommonName (g : TaxonGroupName) (ancestor : Taxon)
    (f : String → TaxonGroupName) : TaxonGroupName :=
  match ancestor.preferred_common_name with
  | some n => f n
  | none => g

/-- The `matches!(group, Phylum(_) | Class(_))` guard of the subclass
arm, as a boolean test. -/
def guardSubclass : TaxonGroupName → Bool
  | .Phylum _ | .Class _ => true
  | _ => false

/-- The infraclass guard: Phylum, Class, Subclass. -/
def guardInfraclass : TaxonGroupName → Bool
  | .Phylum _ | .Class _ | .Subclass _ => true
  | _ => false

/-- The superorder guard: Phylum, Class, Subclass, Infraclass. -/
def guardSuperorder : TaxonGroupName → Bool
  | .Phylum _ | .Class _ | .Subclass _ | .Infraclass _ => true
  | _ => false

/-- The order guard: Phylum, Class, Subclass, Infraclass, Superorder. -/
def guardOrder : TaxonGroupName → Bool
  | .Phylum _ | .Class _ | .Subclass _ | .Infraclass _ | .Superorder _ => true
  | _ => false

/-- The suborder guard: Order. -/
def guardSuborder : TaxonGroupName → Bool
  | .Order _ => true
  | _ => false

/-- The infraorder guard: Phylum, Class, Subclass, Superorder, Suborder
(the omission of Infraclass is in the source). -/
def guardInfraorder : TaxonGroupName → Bool
  | .Phylum _ | .Class _ | .Subclass _ | .Superorder _ | .Suborder _ => true
  | _ => false

/-- The superfamily guard: Order, Infraclass, Subclass, Infraorder. -/
def guardSuperfamily : TaxonGroupName → Bool
  | .Order _ | .Infraclass _ | .Subclass _ | .Infraorder _ => true
  | _ => false

/-- The family guard: Phylum, Order, Infraorder, Subclass, Superfamily. -/
def guardFamily : TaxonGroupName → Bool
  | .Phylum _ | .Order _ | .Infraorder _ | .Subclass _ | .Superfamily _ => true
  | _ => false

/-- The subfamily guard: Family. -/
def guardSubfamily : TaxonGroupName → Bool
  | .Family _ => true
  | _ => false

/-- The genus guard: Subfamily. -/
def guardGenus : TaxonGroupName → Bool
  | .Subfamily _ => true
  | _ => false

/-- The shared body of every guarded arm once its guard has passed: the
preferred-higher-ranks override check for the target rank, then the
common-name assignment. -/
def rankArm (o : CritterCategoryConfig) (g : TaxonGroupName) (a : Taxon)
    (rank : String) (f : String → TaxonGroupName) : TaxonGroupName :=
  if preferHigherCommonName g rank o then g
  else applyCommonName g a f

/-- The `Some("class")` arm: no variant guard, override check, then
assignment. -/
def classArm (o : CritterCategoryConfig) (g : TaxonGroupName) (a : Taxon) : TaxonGroupName :=
  rankArm o g a "class" .Class

/-- The `Some("subclass")` arm; a failed guard falls through to the
unchanged `Some(_) => {}` case. -/
def subclassArm (o : CritterCategoryConfig) (g : TaxonGroupName) (a : Taxon) : TaxonGroupName :=
  if guardSubclass g then rankArm o g a "subclass" .Subclass else g

/-- The `Some("infraclass")` arm. -/
def infraclassArm (o : CritterCategoryConfig) (g : TaxonGroupName) (a : Taxon) : TaxonGroupName :=
  if guardInfraclass g then rankArm o g a "infraclass" .Infraclass else g

/-- The `Some("superorder")` arm. -/
def superorderArm (o : CritterCategoryConfig) (g : TaxonGroupName) (a : Taxon) : TaxonGroupName :=
  if guardSuperorder g then rankArm o g a "superorder" .Superorder else g

/-- The `Some("order")` arm. -/
def orderArm (o : CritterCategoryConfig) (g : TaxonGroupName) (a : Taxon) : TaxonGroupName :=
  if guardOrder g then rankArm o g a "order" .Order else g

/-- The `Some("suborder")` arm. -/
def suborderArm (o : CritterCategoryConfig) (g : TaxonGroupName) (a : Taxon) : TaxonGroupName :=
  if guardSuborder g then rankArm o g a "suborder" .Suborder else g

/-- The `Some("infraorder")` arm. -/
def infraorderArm (o : CritterCategoryConfig) (g : TaxonGroupName) (a : Taxon) : TaxonGroupName :=
  if guardInfraorder g then rankArm o g a "infraorder" .Infraorder else g

/-- The `Some("superfamily")` arm. -/
def superfamilyArm (o : CritterCategoryConfig) (g : TaxonGroupName) (a : Taxon) : TaxonGroupName :=
  if guardSuperfamily g then rankArm o g a "superfamily" .Superfamily else g

/-- The `Some("family")` arm. -/
def familyArm (o : CritterCategoryConfig) (g : TaxonGroupName) (a : Taxon) : TaxonGroupName :=
  if guardFamily g then rankArm o g a "family" .Family else g

/-- The `Some("subfamily")` arm. -/
def subfamilyArm (o : CritterCategoryConfig) (g : TaxonGroupName) (a : Taxon) : TaxonGroupName :=
  if guardSubfamily g then rankArm o g a "subfamily" .Subfamily else g

/-- The `Some("genus")` arm. -/
def genusArm (o : CritterCategoryConfig) (g : TaxonGroupName) (a : Taxon) : TaxonGroupName :=
  if guardGenus g then rankArm o g a "genus" .Genus else g

/-- The `Some("species")` arm: final rename through
`group_names[group.to_string()]`. -/
def speciesArm (o : CritterCategoryConfig) (g : TaxonGroupName) : TaxonGroupName :=
  match lookupAssoc o.group_names (display g) with
  | some v => .Custom v
  | none => g


/-- The rank dispatch of the ancestor loop in `Taxon::group_name`
(`toolbox/src/inaturalist/types.rs`), for an ancestor whose `rank` is
`Some(r)`.  The Rust `match` on the rank string is evaluated
top-to-bottom, which the if-chain mirrors; each arm's body is the
correspondingly named definition above, and any other rank string is the
unchanged `Some(_) => {}` case. -/
def groupNameRank (overrides : CritterCategoryConfig) (g : TaxonGroupName)
    (ancestor : Taxon) (r : String) : TaxonGroupName :=
  if r = "phylum" then applyCommonName g ancestor .Phylum
  else if r = "subphylum" then applyCommonName g ancestor .Subphylum
  else if r = "class" then classArm overrides g ancestor
  else if r = "subclass" then subclassArm overrides g ancestor
  else if r = "infraclass" then infraclassArm overrides g ancestor
  else if r = "superorder" then superorderArm overrides g ancestor
  else if r = "order" then orderArm overrides g ancestor
  else if r = "suborder" then suborderArm overrides g ancestor
  else if r = "infraorder" then infraorderArm overrides g ancestor
  else if r = "superfamily" then superfamilyArm overrides g ancestor
  else if r = "family" then familyArm overrides g ancestor
  else if r = "subfamily" then subfamilyArm overrides g ancestor
  else if r = "genus" then genusArm overrides g ancestor
  else if r = "species" then speciesArm overrides g
  else g

/-- The body of the ancestor loop in `Taxon::group_name`: an ancestor with
no rank leaves the group unchanged (`None => {}`), otherwise the rank
table applies. -/
def groupNameStep (overrides : CritterCategoryConfig) (g : TaxonGroupName)
    (ancestor : Taxon) : TaxonGroupName :=
  match ancestor.rank with
  | some r => groupNameRank overrides g ancestor r
  | none => g

/-- `Taxon::group_name` with the per-ancestor cache resolution factored
out: the classifier starts from `Unspecified` and folds the loop body over
the already-resolved ancestor chain (root-to-species order). -/
def groupNameChain (overrides : CritterCategoryConfig)
    (ancestors : List Taxon) : TaxonGroupName :=
  ancestors.foldl (groupNameStep overrides) .Unspecified

/-! ## Taxon cache (`toolbox/src/inaturalist/helpers.rs`)

The persistent `taxon_cache` table is a list of rows
`(taxon_id, matched_name, taxon)`; the JSON round-trip through
`serde_json` is modelled as the identity.  `remoteCalls` counts the
executions of `lookup_taxon`, i.e. simultaneously the rate-limiter
acquisitions and the HTTP requests to the iNaturalist API (the limiter is
touched exactly once per request).  The remote service is an explicit
environment so that theorems can observe how many calls an operation
performs. -/

/-- One row of the `taxon_cache` table. -/
structure CacheRow where
  taxon_id : Int
  matched_name : String
  taxon : Taxon
  deriving DecidableEq

/-- The cache-side state threaded through the helpers. -/
structure CacheState where
  rows : List CacheRow
  remoteCalls : Nat
  deriving DecidableEq

/-- The remote taxonomy service: the decoded result list of the
by-ids endpoint and of the autocomplete (by-name) endpoint, or a
transport/decode failure. -/
structure RemoteEnv where
  byIds : List Int → Except String (List Taxon)
  byName : String → Except String (List Taxon)

/-- The error values raised by the taxon-cache helpers, one per distinct
`anyhow` message in the source. -/
inductive TaxonError where
  /-- "Running in offline mode - taxon lookup disabled" -/
  | OfflineMode : TaxonError
  /-- "Need at least one Taxon ID to look up" -/
  | InvalidArgument : TaxonError
  /-- "No taxon found for id: {id}" -/
  | NotFoundId : Int → TaxonError
  /-- "No taxon found for name: {name}" -/
  | NotFoundName : String → TaxonError
  /-- "No name information available" (`cache_taxon`) -/
  | NoNameInfo : TaxonError
  /-- transport or JSON-decode failure from `lookup_taxon` -/
  | Remote : String → TaxonError
  deriving DecidableEq

/-- The upsert performed by `cache_taxon`: on conflict on `taxon_id`
update `matched_name` and `taxon`, otherwise insert a new row. -/
def upsertRow (rows : List CacheRow) (t : Taxon) (mn : String) : List CacheRow :=
  if rows.any (fun r => r.taxon_id == t.id) then
    rows.map (fun r => if r.taxon_id == t.id then ⟨t.id, mn, t⟩ else r)
  else
    rows ++ [⟨t.id, mn, t⟩]

/-- `cache_taxon`: the matched name defaults to the taxon's scientific
name; with no name available the operation fails. -/
def cacheTaxon (st : CacheState) (t : Taxon) (matched_name : Option String) :
    Except TaxonError CacheState :=
  match matched_name.or t.name with
  | none => .error .NoNameInfo
  | some mn => .ok { st with rows := upsertRow st.rows t mn }

/-- `cached_taxon(CacheLookupKey::Id(id))`: first row with this
`taxon_id`, if any. -/
def cachedTaxonById (st : CacheState) (id : Int) : Option Taxon :=
  (st.rows.find? (fun r => r.taxon_id == id)).map (·.taxon)

/-- `cached_taxon(CacheLookupKey::Name(name))`: first row with this
`matched_name`, if any. -/
def cachedTaxonByName (st : CacheState) (name : String) : Option Taxon :=
  (st.rows.find? (fun r => r.matched_name == name)).map (·.taxon)

/-- `lookup_taxon_by_ids`: refuse an empty id list, otherwise acquire the
rate limiter and issue one batched request (the call counter increments
whether or not the request succeeds). -/
def lookupTaxonByIds (env : RemoteEnv) (st : CacheState) (ids : List Int) :
    Except TaxonError (List Taxon) × CacheState :=
  if ids.isEmpty then (.error .InvalidArgument, st)
  else
    match env.byIds ids with
    | .ok taxa => (.ok taxa, { st with remoteCalls := st.remoteCalls + 1 })
    | .error e => (.error (.Remote e), { st with remoteCalls := st.remoteCalls + 1 })

/-- `lookup_taxon_by_id`: a one-element batched lookup, taking the first
result. -/
def lookupTaxonById (env : RemoteEnv) (st : CacheState) (id : Int) :
    Except TaxonError Taxon × CacheState :=
  match lookupTaxonByIds env st [id] with
  | (.ok taxa, st') =>
    match taxa.head? with
    | some t => (.ok t, st')
    | none => (.error (.NotFoundId id), st')
  | (.error e, st') => (.error e, st')

/-- `lookup_taxon_by_name`: one rate-limited autocomplete request, taking
the first result. -/
def lookupTaxonByName (env : RemoteEnv) (st : CacheState) (name : String) :
    Except TaxonError Taxon × CacheState :=
  match env.byName name with
  | .ok taxa =>
    match taxa.head? with
    | some t => (.ok t, { st with remoteCalls := st.remoteCalls + 1 })
    | none => (.error (.NotFoundName name), { st with remoteCalls := st.remoteCalls + 1 })
  | .error e => (.error (.Remote e), { st with remoteCalls := st.remoteCalls + 1 })

/-- `get_taxon_by_id`: cache-aside by id with an `offline` flag. -/
def getTaxonById (env : RemoteEnv) (st : CacheState) (id : Int) (offline : Bool) :
    Except TaxonError Taxon × CacheState :=
  match cachedTaxonById st id with
  | some t => (.ok t, st)
  | none =>
    if offline then (.error .OfflineMode, st)
    else
      match lookupTaxonById env st id with
      | (.ok t, st') =>
        match cacheTaxon st' t none with
        | .ok st'' => (.ok t, st'')
        | .error e => (.error e, st')
      | (.error e, st') => (.error e, st')

/-- `get_taxon_by_name`: cache-aside by matched name with an `offline`
flag; a fetched taxon is cached under the originally queried name. -/
def getTaxonByName (env : RemoteEnv) (st : CacheState) (name : String) (offline : Bool) :
    Except TaxonError Taxon × CacheState :=
  match cachedTaxonByName st name with
  | some t => (.ok t, st)
  | none =>
    if offline then (.error .OfflineMode, st)
    else
      match lookupTaxonByName env st name with
      | (.ok t, st') =>
        match cacheTaxon st' t (some name) with
        | .ok st'' => (.ok t, st'')
        | .error e => (.error e, st')
      | (.error e, st') => (.error e, st')

/-- First-occurrence deduplication, modelling the collection of the
requested ids into a `HashSet` (iteration order of a `HashSet` is
unspecified; the claims below do not depend on the order chosen). -/
def dedupAcc (seen : List Int) : List Int → List Int
  | [] => []
  | x :: xs => if seen.contains x then dedupAcc seen xs else x :: dedupAcc (x :: seen) xs

/-- `Itertools::chunks(n)`: split into consecutive chunks of at most `n`
elements; the fuel argument keeps the recursion structural. -/
def chunksOfAux (n : Nat) : Nat → List Int → List (List Int)
  | _, [] => []
  | 0, l => [l]
  | fuel + 1, l => l.take n :: chunksOfAux n fuel (l.drop n)

/-- `Itertools::chunks(n)` over a list. -/
def chunksOf (n : Nat) (l : List Int) : List (List Int) :=
  chunksOfAux n l.length l

/-- The fetch loop of `get_taxon_by_ids`: for every chunk of missing ids,
one batched remote lookup followed by caching each returned taxon; the
first failure aborts. -/
def fetchChunks (env : RemoteEnv) (st : CacheState) :
    List (List Int) → Except TaxonError Unit × CacheState
  | [] => (.ok (), st)
  | chunk :: rest =>
    match lookupTaxonByIds env st chunk with
    | (.ok taxa, st') =>
      match taxa.foldlM (fun s t => cacheTaxon s t none) st' with
      | .ok st'' => fetchChunks env st'' rest
      | .error e => (.error e, st')
    | (.error e, st') => (.error e, st')

/-- The ids among `ids` already present in the cache (the
`select taxon_id … where taxon_id in ids` query). -/
def cachedIds (st : CacheState) (ids : List Int) : List Int :=
  (st.rows.filter (fun r => ids.contains r.taxon_id)).map (·.taxon_id)

/-- The final read-back of `get_taxon_by_ids`: every cached row whose
`taxon_id` is among the requested ids, in store order. -/
def readBack (st : CacheState) (ids : List Int) : List Taxon :=
  (st.rows.filter (fun r => ids.contains r.taxon_id)).map (·.taxon)

/-- The `wanted_ids.difference(&cache_ids)` computation: requested ids
(deduplicated) not present in the cache. -/
def missingIds (st : CacheState) (ids : List Int) : List Int :=
  (dedupAcc [] ids).filter (fun i => !(cachedIds st ids).contains i)

/-- `get_taxon_by_ids`: partition into cached and missing ids, fetch the
missing ones in chunks of 25 through the remote client, then return the
full set read back from the store.  Note the Rust signature takes no
`offline` flag. -/
def getTaxonByIds (env : RemoteEnv) (st : CacheState) (ids : List Int) :
    Except TaxonError (List Taxon) × CacheState :=
  match (if (missingIds st ids).isEmpty then (.ok (), st)
         else fetchChunks env st (chunksOf 25 (missingIds st ids))) with
  | (.ok _, st') => (.ok (readBack st' ids), st')
  | (.error e, st') => (.error e, st')

/-! ## Name verification cache (`toolbox/src/helpers/globalnames.rs`)

Timestamps are modelled in days; an entry is fresh when
`verified_at ≥ now - 90` (the `VerifiedAt.gte(now - Duration::days(90))`
filter).  `remoteCalls` counts executions of `verify_name`, i.e. the
rate-limiter acquisitions and HTTP requests to the verifier. -/

/-- The fields of a verifier match result consumed by the core
(`current_canonical_simple`); the remaining fields are passed through
opaquely. -/
structure VerificationResultData where
  current_canonical_simple : String
  deriving DecidableEq

/-- One returned name with its match results. -/
structure VerifiedNameData where
  results : List VerificationResultData
  deriving DecidableEq

/-- The verifier response body. -/
structure VerificationResponse where
  names : List VerifiedNameData
  deriving DecidableEq

/-- One row of the `verified_name` table. -/
structure VerifiedRow where
  matched_name : String
  current_name : String
  verified_at : Int
  deriving DecidableEq

/-- State of the name-verification cache. -/
structure GnState where
  rows : List VerifiedRow
  now : Int
  remoteCalls : Nat
  deriving DecidableEq

/-- Errors of the `normalize` helper; `InconsistentUpstreamResponse` is
the `bail!("Matched name without result in response")`. -/
inductive GnError where
  | InconsistentUpstreamResponse : GnError
  | Remote : String → GnError
  deriving DecidableEq

/-- The freshness-filtered cache query in `normalize`: first row matching
the name whose `verified_at` is within the last 90 days. -/
def gnCachedFresh (st : GnState) (name : String) : Option VerifiedRow :=
  st.rows.find? (fun r => r.matched_name == name && r.verified_at ≥ st.now - 90)

/-- The upsert of `cache_verified_name`: on conflict on `matched_name`
update `current_name` and `verified_at`, otherwise insert. -/
def gnUpsert (rows : List VerifiedRow) (name current : String) (at_ : Int) :
    List VerifiedRow :=
  if rows.any (fun r => r.matched_name == name) then
    rows.map (fun r => if r.matched_name == name then ⟨name, current, at_⟩ else r)
  else
    rows ++ [⟨name, current, at_⟩]

/-- The handling of the first returned name in `normalize`: no first
match result is the hard `InconsistentUpstreamResponse` error; otherwise
the first result is cached (upsert) and its canonical name returned. -/
def gnHandleRecord (st' : GnState) (name : String)
    (record : VerifiedNameData) : Except GnError String × GnState :=
  match record.results.head? with
  | none => (.error .InconsistentUpstreamResponse, st')
  | some data =>
    (.ok data.current_canonical_simple,
      { st' with rows := gnUpsert st'.rows name data.current_canonical_simple st'.now })

/-- `response.names.into_iter().next()` absent falls back to the input
name; a present first name is handled by `gnHandleRecord`. -/
def gnHandleResponse (st' : GnState) (name : String)
    (resp : VerificationResponse) : Except GnError String × GnState :=
  match resp.names.head? with
  | none => (.ok name, st')
  | some record => gnHandleRecord st' name record

/-- `helpers::globalnames::normalize`: fresh cache hit short-circuits;
otherwise `verify_name` is called (one rate-limited request, counted even
though its transport errors pass through) and the response is handled as
above. -/
def gnNormalize (env : String → Except String VerificationResponse)
    (st : GnState) (name : String) : Except GnError String × GnState :=
  match gnCachedFresh st name with
  | some row => (.ok row.current_name, st)
  | none =>
    match env name with
    | .error e => (.error (.Remote e), { st with remoteCalls := st.remoteCalls + 1 })
    | .ok resp => gnHandleResponse { st with remoteCalls := st.remoteCalls + 1 } name resp

/-! ## Concrete data for witnesses and counterexamples -/

/-- The policy with no overrides at all. -/
def emptyPol : CritterCategoryConfig := ⟨[], [], []⟩

/-- A policy whose only content is `ignored_common_names["class"] =
{"sea snails"}`. -/
def polIgnore : CritterCategoryConfig := ⟨[], [], [("class", ["sea snails"])]⟩

/-- A policy renaming the display string "Dorid Nudibranchs" to
"Nudibranchs" at species level. -/
def polDorid : CritterCategoryConfig := ⟨[("Dorid Nudibranchs", "Nudibranchs")], [], []⟩

/-- A policy renaming the display string "Unknown" to "Wildlife" at
species level. -/
def polUnknown : CritterCategoryConfig := ⟨[("Unknown", "Wildlife")], [], []⟩

/-- A policy listing `Class("Sea Anemones and Corals")` under
`preferred_higher_ranks["subclass"]`. -/
def polPrefer : CritterCategoryConfig :=
  ⟨[], [("subclass", [TaxonGroupName.Class "Sea Anemones and Corals"])], []⟩

/-- A phylum-rank ancestor with common name "molluscs". -/
def ancPhylum : Taxon := ⟨1, some "Mollusca", some "molluscs", some "phylum", none⟩

/-- A class-rank ancestor with common name "sea snails". -/
def ancClass : Taxon := ⟨3, some "Gastropoda", some "sea snails", some "class", none⟩

/-- A subclass-rank ancestor with common name "sea slugs". -/
def ancSubclass : Taxon := ⟨2, some "Heterobranchia", some "sea slugs", some "subclass", none⟩

/-- A family-rank ancestor with common name "Dorid Nudibranchs". -/
def ancFamily : Taxon := ⟨4, some "Chromodorididae", some "Dorid Nudibranchs", some "family", none⟩

/-- A species-rank ancestor (terminal marker). -/
def ancSpecies : Taxon := ⟨5, some "Chromodoris annae", none, some "species", none⟩

/-- A concrete taxon as served by the remote stub. -/
def taxMollusca : Taxon := ⟨1, some "Mollusca", none, none, none⟩

/-- A remote stub answering every query with `taxMollusca`. -/
def envStub : RemoteEnv := ⟨fun _ => .ok [taxMollusca], fun _ => .ok [taxMollusca]⟩

/-- The empty taxon-cache state. -/
def cacheEmpty : CacheState := ⟨[], 0⟩

/-- The taxon-cache state after fetching `taxMollusca` by id through
`envStub` (cached under its scientific name, one remote call made). -/
def cacheAfterId : CacheState := ⟨[⟨1, "Mollusca", taxMollusca⟩], 1⟩

/-- The taxon-cache state after fetching `taxMollusca` by the queried name
"Chromodoris annae" through `envStub`. -/
def cacheAfterName : CacheState := ⟨[⟨1, "Chromodoris annae", taxMollusca⟩], 1⟩

/-- The empty verified-name cache at day 0. -/
def gnEmpty : GnState := ⟨[], 0, 0⟩

/-- A verifier stub returning a response with no names at all. -/
def gnEnvNoNames : String → Except String VerificationResponse :=
  fun _ => .ok ⟨[]⟩

/-- A verifier stub returning one name carrying an empty match-results
list. -/
def gnEnvEmptyResults : String → Except String VerificationResponse :=
  fun _ => .ok ⟨[⟨[]⟩]⟩

/-- The eleven rank names whose arms in the rank table perform the
preferred-higher-ranks override check. -/
def guardedRankNames : List String :=
  ["class", "subclass", "infraclass", "superorder", "order", "suborder",
   "infraorder", "superfamily", "family", "subfamily", "genus"]

/-! ## Helper lemmas (shared; not tied to a single claim) -/

/-- Dispatching a concrete rank string. -/
theorem groupNameStep_rank (o : CritterCategoryConfig) (g : TaxonGroupName)
    (a : Taxon) (r : String) (ha : a.rank = some r) :
    groupNameStep o g a = groupNameRank o g a r := by
  unfold groupNameStep
  rw [ha]

/-- Rank dispatch at "class". -/
theorem groupNameRank_class (o : CritterCategoryConfig) (g : TaxonGroupName) (a : Taxon) :
    groupNameRank o g a "class" = classArm o g a := by
  unfold groupNameRank
  simp

/-- Rank dispatch at "subclass". -/
theorem groupNameRank_subclass (o : CritterCategoryConfig) (g : TaxonGroupName) (a : Taxon) :
    groupNameRank o g a "subclass" = subclassArm o g a := by
  unfold groupNameRank
  simp

/-- Rank dispatch at "infraclass". -/
theorem groupNameRank_infraclass (o : CritterCategoryConfig) (g : TaxonGroupName) (a : Taxon) :
    groupNameRank o g a "infraclass" = infraclassArm o g a := by
  unfold groupNameRank
  simp

/-- Rank dispatch at "superorder". -/
theorem groupNameRank_superorder (o : CritterCategoryConfig) (g : TaxonGroupName) (a : Taxon) :
    groupNameRank o g a "superorder" = superorderArm o g a := by
  unfold groupNameRank
  simp

/-- Rank dispatch at "order". -/
theorem groupNameRank_order (o : CritterCategoryConfig) (g : TaxonGroupName) (a : Taxon) :
    groupNameRank o g a "order" = orderArm o g a := by
  unfold groupNameRank
  simp

/-- Rank dispatch at "suborder". -/
theorem groupNameRank_suborder (o : CritterCategoryConfig) (g : TaxonGroupName) (a : Taxon) :
    groupNameRank o g a "suborder" = suborderArm o g a := by
  unfold groupNameRank
  simp

/-- Rank dispatch at "infraorder". -/
theorem groupNameRank_infraorder (o : CritterCategoryConfig) (g : TaxonGroupName) (a : Taxon) :
    groupNameRank o g a "infraorder" = infraorderArm o g a := by
  unfold groupNameRank
  simp

/-- Rank dispatch at "superfamily". -/
theorem groupNameRank_superfamily (o : CritterCategoryConfig) (g : TaxonGroupName) (a : Taxon) :
    groupNameRank o g a "superfamily" = superfamilyArm o g a := by
  unfold groupNameRank
  simp

/-- Rank dispatch at "family". -/
theorem groupNameRank_family (o : CritterCategoryConfig) (g : TaxonGroupName) (a : Taxon) :
    groupNameRank o g a "family" = familyArm o g a := by
  unfold groupNameRank
  simp

/-- Rank dispatch at "subfamily". -/
theorem groupNameRank_subfamily (o : CritterCategoryConfig) (g : TaxonGroupName) (a : Taxon) :
    groupNameRank o g a "subfamily" = subfamilyArm o g a := by
  unfold groupNameRank
  simp

/-- Rank dispatch at "genus". -/
theorem groupNameRank_genus (o : CritterCategoryConfig) (g : TaxonGroupName) (a : Taxon) :
    groupNameRank o g a "genus" = genusArm o g a := by
  unfold groupNameRank
  simp

/-- Rank dispatch at "species". -/
theorem groupNameRank_species (o : CritterCategoryConfig) (g : TaxonGroupName) (a : Taxon) :
    groupNameRank o g a "species" = speciesArm o g := by
  unfold groupNameRank
  simp

/-- The species arm of the rank table, isolated. -/
theorem groupNameStep_species (o : CritterCategoryConfig) (g : TaxonGroupName)
    (a : Taxon) (ha : a.rank = some "species") :
    groupNameStep o g a = speciesArm o g := by
  rw [groupNameStep_rank o g a "species" ha]
  exact groupNameRank_species o g a

/-- `applyCommonName` either assigns the rank variant or leaves the group
unchanged. -/
theorem applyCommonName_cases (g : TaxonGroupName) (a : Taxon)
    (f : String → TaxonGroupName) :
    applyCommonName g a f = g ∨ ∃ m, applyCommonName g a f = f m := by
  unfold applyCommonName
  cases a.preferred_common_name
  · exact Or.inl rfl
  · exact Or.inr ⟨_, rfl⟩

/-- A guarded arm's body either assigns the rank variant or leaves the
group unchanged. -/
theorem rankArm_cases (o : CritterCategoryConfig) (g : TaxonGroupName) (a : Taxon)
    (rank : String) (f : String → TaxonGroupName) :
    rankArm o g a rank f = g ∨ ∃ m, rankArm o g a rank f = f m := by
  unfold rankArm
  by_cases hp : preferHigherCommonName g rank o = true
  · rw [if_pos hp]
    exact Or.inl rfl
  · rw [if_neg hp]
    exact applyCommonName_cases g a f

/-- The species arm either rewrites to `Custom` or leaves the group
unchanged. -/
theorem speciesArm_cases (o : CritterCategoryConfig) (g : TaxonGroupName) :
    speciesArm o g = g ∨ ∃ v, speciesArm o g = TaxonGroupName.Custom v := by
  unfold speciesArm
  cases lookupAssoc o.group_names (display g)
  · exact Or.inl rfl
  · exact Or.inr ⟨_, rfl⟩

/-- A group passing the subclass guard is a `Phylum` or a `Class`. -/
theorem guardSubclass_shape (g : TaxonGroupName) (h : guardSubclass g = true) :
    (∃ m, g = TaxonGroupName.Phylum m) ∨ (∃ m, g = TaxonGroupName.Class m) := by
  cases g <;>
    first
      | exact Or.inl ⟨_, rfl⟩
      | exact Or.inr ⟨_, rfl⟩
      | simp [guardSubclass] at h

/-- When the preferred-higher-ranks check fires, a guarded arm's body
leaves the group unchanged. -/
theorem rankArm_prefer (o : CritterCategoryConfig) (g : TaxonGroupName) (a : Taxon)
    (rank : String) (f : String → TaxonGroupName)
    (hp : preferHigherCommonName g rank o = true) :
    rankArm o g a rank f = g := by
  unfold rankArm
  rw [if_pos hp]

/-- Splitting the classifier fold at an append. -/
theorem groupNameChain_append (o : CritterCategoryConfig) (pre l : List Taxon) :
    groupNameChain o (pre ++ l) = l.foldl (groupNameStep o) (groupNameChain o pre) := by
  simp [groupNameChain, List.foldl_append]

/-- `Char.ofNat` round-trips on code points below the surrogate range. -/
theorem char_toNat_ofNat (n : Nat) (h : n < 55296) : (Char.ofNat n).toNat = n := by
  unfold Char.ofNat
  rw [dif_pos (Or.inl h)]
  rfl

/-- Uppercasing then lowercasing restores a lowercase-stable character. -/
theorem char_toLower_toUpper (c : Char) (h : c.toLower = c) : (c.toUpper).toLower = c := by
  unfold Char.toUpper
  by_cases hl : 97 ≤ c.toNat ∧ c.toNat ≤ 122
  · rw [if_pos hl]
    unfold Char.toLower
    have h1 : (Char.ofNat (c.toNat - 32)).toNat = c.toNat - 32 :=
      char_toNat_ofNat (c.toNat - 32) (by omega)
    rw [h1, if_pos (by omega)]
    have h2 : c.toNat - 32 + 32 = c.toNat := by omega
    rw [h2, Char.ofNat_toNat]
  · rw [if_neg hl]
    exact h

/-- `Char.toLower` is idempotent. -/
theorem char_toLower_idem (c : Char) : (c.toLower).toLower = c.toLower := by
  unfold Char.toLower
  by_cases hu : 65 ≤ c.toNat ∧ c.toNat ≤ 90
  · rw [if_pos hu]
    have h1 : (Char.ofNat (c.toNat + 32)).toNat = c.toNat + 32 :=
      char_toNat_ofNat (c.toNat + 32) (by omega)
    rw [h1, if_neg (by omega)]
  · rw [if_neg hu, if_neg hu]

/-- `dropWhile` keeps a sublist. -/
theorem mem_dropWhile (p : Char → Bool) (l : List Char) (c : Char)
    (h : c ∈ l.dropWhile p) : c ∈ l :=
  (List.dropWhile_sublist p).mem h

/-- Prefix stripping only removes characters. -/
theorem mem_trimStartAllAux : ∀ (fuel : Nat) (pat s : List Char) (c : Char),
    c ∈ trimStartAllAux pat fuel s → c ∈ s := by
  intro fuel
  induction fuel with
  | zero => intro pat s c h; exact h
  | succ n ih =>
    intro pat s c h
    unfold trimStartAllAux at h
    by_cases hcond : pat ≠ [] ∧ pat.isPrefixOf s
    · rw [if_pos hcond] at h
      exact List.mem_of_mem_drop (ih pat (s.drop pat.length) c h)
    · rw [if_neg hcond] at h
      exact h

/-- `trimStartAll` only removes characters. -/
theorem mem_trimStartAll (pat s : List Char) (c : Char)
    (h : c ∈ trimStartAll pat s) : c ∈ s :=
  mem_trimStartAllAux s.length pat s c h

/-- `trimEndAll` only removes characters. -/
theorem mem_trimEndAll (pat s : List Char) (c : Char)
    (h : c ∈ trimEndAll pat s) : c ∈ s := by
  unfold trimEndAll at h
  rw [List.mem_reverse] at h
  exact List.mem_reverse.mp (mem_trimStartAll _ _ _ h)

/-- `trimList` only removes characters. -/
theorem mem_trimList (s : List Char) (c : Char) (h : c ∈ trimList s) : c ∈ s := by
  unfold trimList at h
  rw [List.mem_reverse] at h
  have h2 := mem_dropWhile _ _ _ h
  rw [List.mem_reverse] at h2
  exact mem_dropWhile _ _ _ h2

/-- `trimEndChar` only removes characters. -/
theorem mem_trimEndChar (ch : Char) (s : List Char) (c : Char)
    (h : c ∈ trimEndChar ch s) : c ∈ s := by
  unfold trimEndChar at h
  rw [List.mem_reverse] at h
  have h2 := mem_dropWhile _ _ _ h
  rw [List.mem_reverse] at h2
  exact h2

/-- Characters produced by `toLowerList` are lowercase-stable. -/
theorem mem_toLowerList_lower (s : List Char) (c : Char)
    (h : c ∈ toLowerList s) : c.toLower = c := by
  unfold toLowerList at h
  obtain ⟨d, _, rfl⟩ := List.mem_map.mp h
  exact char_toLower_idem d

/-- Unpacking a packed character list. -/
theorem string_toList_mk (l : List Char) : (String.mk l).toList = l := rfl

/-- `String` equality from equal character lists. -/
theorem string_ext_toList (a b : String) (h : a.toList = b.toList) : a = b :=
  String.ext h

/-- The character list of a `normalizeCore` output. -/
theorem normalizeCore_toList (s : String) :
    (normalizeCore s).toList = stripPipeline (toLowerList s.toList) := by
  unfold normalizeCore
  exact string_toList_mk _

/-- The character list of a `normalize` output. -/
theorem normalize_toList (s : String) :
    (normalize s).toList = titleCaseList (normalizeCore s).toList := by
  unfold normalize
  exact string_toList_mk _

/-- The stripping chain only removes characters. -/
theorem mem_stripPipeline (w : List Char) (c : Char)
    (h : c ∈ stripPipeline w) : c ∈ w := by
  unfold stripPipeline at h
  exact mem_trimStartAll _ _ _
    (mem_trimStartAll _ _ _
      (mem_trimStartAll _ _ _
        (mem_trimEndAll _ _ _
          (mem_trimList _ _
            (mem_trimEndChar _ _ _ h)))))

/-- Every character of a `normalizeCore` output is lowercase-stable: the
pipeline lowercases first and afterwards only removes characters. -/
theorem normalizeCore_lower (s : String) :
    ∀ c ∈ (normalizeCore s).toList, c.toLower = c := by
  intro c hc
  rw [normalizeCore_toList] at hc
  exact mem_toLowerList_lower _ c (mem_stripPipeline _ c hc)

/-- Lowercasing inverts title-casing on lowercase-stable text. -/
theorem toLowerList_titleCaseGo : ∀ (z : List Char) (up : Bool),
    (∀ c ∈ z, c.toLower = c) → toLowerList (titleCaseGo up z) = z := by
  intro z
  induction z with
  | nil => intro up _; rfl
  | cons c cs ih =>
    intro up hz
    have hc := hz c (List.mem_cons_self c cs)
    have hhead : (if up then c.toUpper else c.toLower).toLower = c := by
      cases up
      · rw [if_neg Bool.false_ne_true, char_toLower_idem]
        exact hc
      · rw [if_pos rfl]
        exact char_toLower_toUpper c hc
    have htail := ih (c == ' ') (fun d hd => hz d (List.mem_cons_of_mem c hd))
    show ((if up then c.toUpper else c.toLower).toLower)
        :: toLowerList (titleCaseGo (c == ' ') cs) = c :: cs
    rw [hhead, htail]

/-- Lowercasing inverts `titleCaseList` on lowercase-stable text. -/
theorem toLowerList_titleCaseList (z : List Char)
    (hz : ∀ c ∈ z, c.toLower = c) : toLowerList (titleCaseList z) = z :=
  toLowerList_titleCaseGo z true hz

/-! ## Claim theorems -/

/-- C1 counterexample: with a policy whose `ignored_common_names["class"]`
set contains "sea snails", a class-rank ancestor whose preferred common
name is "sea snails" still sets the running group to
`Class("sea snails")` — the name is not skipped. -/
theorem c1_counterexample :
    lookupAssoc polIgnore.ignored_common_names "class" = some ["sea snails"] ∧
    groupNameChain polIgnore [ancClass] = TaxonGroupName.Class "sea snails" := by
  decide

/-- C1 (amended): the toolbox classifier never consults
`ignored_common_names`; for every ancestor chain the result is invariant
under arbitrary changes to that map, so no common name is ever skipped at
rank "class" on its account (only the preferred-higher-ranks check can
skip a class ancestor). -/
theorem c1_ignored_common_names_never_consulted (o : CritterCategoryConfig)
    (ign : List (String × List String)) (ancestors : List Taxon) :
    groupNameChain { o with ignored_common_names := ign } ancestors =
      groupNameChain o ancestors := rfl

/-- C3 counterexample: the display normalization is not idempotent.
`normalize "falsetrue"` strips the leading "false" and title-cases the
remaining "true" to "True"; normalizing that again lower-cases it to
"true", strips it as a leading token and yields "". -/
theorem c3_counterexample :
    normalize (normalize "falsetrue") ≠ normalize "falsetrue" := by
  decide

/-- C3 (amended): normalize is idempotent at an input exactly when its
normalized form survives the stripping pipeline unchanged (the
re-normalization strips nothing further); in general (leading
"true"/"false"/"typical" tokens or trailing "and allies"/comma material
re-exposed by the first pass) it is not.  The forward direction uses that
core outputs are lowercase-stable, so lowercasing inverts the
title-casing and idempotence forces stripping-stability. -/
theorem c3_normalize_conditionally_idempotent (x : String) :
    normalize (normalize x) = normalize x ↔
      normalizeCore (normalize x) = normalizeCore x := by
  constructor
  · intro h
    have hT := congrArg String.toList h
    rw [normalize_toList (normalize x), normalize_toList x] at hT
    have h1 := toLowerList_titleCaseList (normalizeCore (normalize x)).toList
      (normalizeCore_lower (normalize x))
    have h2 := toLowerList_titleCaseList (normalizeCore x).toList
      (normalizeCore_lower x)
    refine string_ext_toList _ _ ?_
    calc (normalizeCore (normalize x)).toList
        = toLowerList (titleCaseList (normalizeCore (normalize x)).toList) := h1.symm
      _ = toLowerList (titleCaseList (normalizeCore x).toList) := by rw [hT]
      _ = (normalizeCore x).toList := h2
  · intro h
    unfold normalize at h ⊢
    rw [h]

/-- C3 witness: a well-behaved input on which the amended idempotence
equivalence applies, the stripping-stability side evaluated concretely. -/
theorem c3_witness : normalize (normalize "Nudibranchs") = normalize "Nudibranchs" :=
  (c3_normalize_conditionally_idempotent "Nudibranchs").mpr (by decide)

/-- C4: a step of the classifier yields `Subclass(_)` only if the group
immediately before the step was `Phylum(_)` or `Class(_)` (or was already
that `Subclass` value, i.e. no transition happened). -/
theorem c4_subclass_transition_guard (o : CritterCategoryConfig)
    (g : TaxonGroupName) (a : Taxon) (n : String)
    (h : groupNameStep o g a = TaxonGroupName.Subclass n)
    (hg : ¬ ∃ m, g = TaxonGroupName.Subclass m) :
    (∃ m, g = TaxonGroupName.Phylum m) ∨ (∃ m, g = TaxonGroupName.Class m) := by
  rcases harank : a.rank with _ | r
  · unfold groupNameStep at h
    rw [harank] at h
    exact absurd ⟨n, h⟩ hg
  · rw [groupNameStep_rank o g a r harank] at h
    unfold groupNameRank at h
    by_cases h1 : r = "phylum"
    · rw [if_pos h1] at h
      rcases applyCommonName_cases g a TaxonGroupName.Phylum with hs | ⟨m, hm⟩
      · rw [hs] at h
        exact absurd ⟨n, h⟩ hg
      · rw [hm] at h
        simp at h
    rw [if_neg h1] at h
    by_cases h2 : r = "subphylum"
    · rw [if_pos h2] at h
      rcases applyCommonName_cases g a TaxonGroupName.Subphylum with hs | ⟨m, hm⟩
      · rw [hs] at h
        exact absurd ⟨n, h⟩ hg
      · rw [hm] at h
        simp at h
    rw [if_neg h2] at h
    by_cases h3 : r = "class"
    · rw [if_pos h3] at h
      unfold classArm at h
      rcases rankArm_cases o g a "class" TaxonGroupName.Class with hs | ⟨m, hm⟩
      · rw [hs] at h
        exact absurd ⟨n, h⟩ hg
      · rw [hm] at h
        simp at h
    rw [if_neg h3] at h
    by_cases h4 : r = "subclass"
    · rw [if_pos h4] at h
      unfold subclassArm at h
      by_cases hgd : guardSubclass g = true
      · exact guardSubclass_shape g hgd
      · rw [if_neg hgd] at h
        exact absurd ⟨n, h⟩ hg
    rw [if_neg h4] at h
    by_cases h5 : r = "infraclass"
    · rw [if_pos h5] at h
      unfold infraclassArm at h
      by_cases hgd : guardInfraclass g = true
      · rw [if_pos hgd] at h
        rcases rankArm_cases o g a "infraclass" TaxonGroupName.Infraclass with hs | ⟨m, hm⟩
        · rw [hs] at h
          exact absurd ⟨n, h⟩ hg
        · rw [hm] at h
          simp at h
      · rw [if_neg hgd] at h
        exact absurd ⟨n, h⟩ hg
    rw [if_neg h5] at h
    by_cases h6 : r = "superorder"
    · rw [if_pos h6] at h
      unfold superorderArm at h
      by_cases hgd : guardSuperorder g = true
      · rw [if_pos hgd] at h
        rcases rankArm_cases o g a "superorder" TaxonGroupName.Superorder with hs | ⟨m, hm⟩
        · rw [hs] at h
          exact absurd ⟨n, h⟩ hg
        · rw [hm] at h
          simp at h
      · rw [if_neg hgd] at h
        exact absurd ⟨n, h⟩ hg
    rw [if_neg h6] at h
    by_cases h7 : r = "order"
    · rw [if_pos h7] at h
      unfold orderArm at h
      by_cases hgd : guardOrder g = true
      · rw [if_pos hgd] at h
        rcases rankArm_cases o g a "order" TaxonGroupName.Order with hs | ⟨m, hm⟩
        · rw [hs] at h
          exact absurd ⟨n, h⟩ hg
        · rw [hm] at h
          simp at h
      · rw [if_neg hgd] at h
        exact absurd ⟨n, h⟩ hg
    rw [if_neg h7] at h
    by_cases h8 : r = "suborder"
    · rw [if_pos h8] at h
      unfold suborderArm at h
      by_cases hgd : guardSuborder g = true
      · rw [if_pos hgd] at h
        rcases rankArm_cases o g a "suborder" TaxonGroupName.Suborder with hs | ⟨m, hm⟩
        · rw [hs] at h
          exact absurd ⟨n, h⟩ hg
        · rw [hm] at h
          simp at h
      · rw [if_neg hgd] at h
        exact absurd ⟨n, h⟩ hg
    rw [if_neg h8] at h
    by_cases h9 : r = "infraorder"
    · rw [if_pos h9] at h
      unfold infraorderArm at h
      by_cases hgd : guardInfraorder g = true
      · rw [if_pos hgd] at h
        rcases rankArm_cases o g a "infraorder" TaxonGroupName.Infraorder with hs | ⟨m, hm⟩
        · rw [hs] at h
          exact absurd ⟨n, h⟩ hg
        · rw [hm] at h
          simp at h
      · rw [if_neg hgd] at h
        exact absurd ⟨n, h⟩ hg
    rw [if_neg h9] at h
    by_cases h10 : r = "superfamily"
    · rw [if_pos h10] at h
      unfold superfamilyArm at h
      by_cases hgd : guardSuperfamily g = true
      · rw [if_pos hgd] at h
        rcases rankArm_cases o g a "superfamily" TaxonGroupName.Superfamily with hs | ⟨m, hm⟩
        · rw [hs] at h
          exact absurd ⟨n, h⟩ hg
        · rw [hm] at h
          simp at h
      · rw [if_neg hgd] at h
        exact absurd ⟨n, h⟩ hg
    rw [if_neg h10] at h
    by_cases h11 : r = "family"
    · rw [if_pos h11] at h
      unfold familyArm at h
      by_cases hgd : guardFamily g = true
      · rw [if_pos hgd] at h
        rcases rankArm_cases o g a "family" TaxonGroupName.Family with hs | ⟨m, hm⟩
        · rw [hs] at h
          exact absurd ⟨n, h⟩ hg
        · rw [hm] at h
          simp at h
      · rw [if_neg hgd] at h
        exact absurd ⟨n, h⟩ hg
    rw [if_neg h11] at h
    by_cases h12 : r = "subfamily"
    · rw [if_pos h12] at h
      unfold subfamilyArm at h
      by_cases hgd : guardSubfamily g = true
      · rw [if_pos hgd] at h
        rcases rankArm_cases o g a "subfamily" TaxonGroupName.Subfamily with hs | ⟨m, hm⟩
        · rw [hs] at h
          exact absurd ⟨n, h⟩ hg
        · rw [hm] at h
          simp at h
      · rw [if_neg hgd] at h
        exact absurd ⟨n, h⟩ hg
    rw [if_neg h12] at h
    by_cases h13 : r = "genus"
    · rw [if_pos h13] at h
      unfold genusArm at h
      by_cases hgd : guardGenus g = true
      · rw [if_pos hgd] at h
        rcases rankArm_cases o g a "genus" TaxonGroupName.Genus with hs | ⟨m, hm⟩
        · rw [hs] at h
          exact absurd ⟨n, h⟩ hg
        · rw [hm] at h
          simp at h
      · rw [if_neg hgd] at h
        exact absurd ⟨n, h⟩ hg
    rw [if_neg h13] at h
    by_cases h14 : r = "species"
    · rw [if_pos h14] at h
      rcases speciesArm_cases o g with hs | ⟨v, hv⟩
      · rw [hs] at h
        exact absurd ⟨n, h⟩ hg
      · rw [hv] at h
        simp at h
    rw [if_neg h14] at h
    exact absurd ⟨n, h⟩ hg

/-- C4 witness: from `Phylum("molluscs")`, a subclass ancestor transitions
to `Subclass("sea slugs")`, and the predecessor was indeed a `Phylum`. -/
theorem c4_witness :
    (∃ m, TaxonGroupName.Phylum "molluscs" = TaxonGroupName.Phylum m) ∨
    (∃ m, TaxonGroupName.Phylum "molluscs" = TaxonGroupName.Class m) :=
  c4_subclass_transition_guard emptyPol (TaxonGroupName.Phylum "molluscs")
    ancSubclass "sea slugs" (by decide)
    (by rintro ⟨m, hm⟩; exact TaxonGroupName.noConfusion hm)

/-- C5: at an ancestor of any guarded rank `r`, if the current group is a
member (same variant, case-insensitive text) of
`preferred_higher_ranks[r]`, the step leaves the group unchanged. -/
theorem c5_preferred_higher_rank_skips (o : CritterCategoryConfig)
    (g : TaxonGroupName) (a : Taxon) (r : String)
    (ha : a.rank = some r) (hr : r ∈ guardedRankNames)
    (hp : preferHigherCommonName g r o = true) :
    groupNameStep o g a = g := by
  rw [groupNameStep_rank o g a r ha]
  simp only [guardedRankNames, List.mem_cons, List.not_mem_nil, or_false] at hr
  rcases hr with rfl | rfl | rfl | rfl | rfl | rfl | rfl | rfl | rfl | rfl | rfl
  · rw [groupNameRank_class]
    exact rankArm_prefer o g a "class" TaxonGroupName.Class hp
  · rw [groupNameRank_subclass]
    unfold subclassArm
    by_cases hgd : guardSubclass g = true
    · rw [if_pos hgd]
      exact rankArm_prefer o g a "subclass" TaxonGroupName.Subclass hp
    · rw [if_neg hgd]
  · rw [groupNameRank_infraclass]
    unfold infraclassArm
    by_cases hgd : guardInfraclass g = true
    · rw [if_pos hgd]
      exact rankArm_prefer o g a "infraclass" TaxonGroupName.Infraclass hp
    · rw [if_neg hgd]
  · rw [groupNameRank_superorder]
    unfold superorderArm
    by_cases hgd : guardSuperorder g = true
    · rw [if_pos hgd]
      exact rankArm_prefer o g a "superorder" TaxonGroupName.Superorder hp
    · rw [if_neg hgd]
  · rw [groupNameRank_order]
    unfold orderArm
    by_cases hgd : guardOrder g = true
    · rw [if_pos hgd]
      exact rankArm_prefer o g a "order" TaxonGroupName.Order hp
    · rw [if_neg hgd]
  · rw [groupNameRank_suborder]
    unfold suborderArm
    by_cases hgd : guardSuborder g = true
    · rw [if_pos hgd]
      exact rankArm_prefer o g a "suborder" TaxonGroupName.Suborder hp
    · rw [if_neg hgd]
  · rw [groupNameRank_infraorder]
    unfold infraorderArm
    by_cases hgd : guardInfraorder g = true
    · rw [if_pos hgd]
      exact rankArm_prefer o g a "infraorder" TaxonGroupName.Infraorder hp
    · rw [if_neg hgd]
  · rw [groupNameRank_superfamily]
    unfold superfamilyArm
    by_cases hgd : guardSuperfamily g = true
    · rw [if_pos hgd]
      exact rankArm_prefer o g a "superfamily" TaxonGroupName.Superfamily hp
    · rw [if_neg hgd]
  · rw [groupNameRank_family]
    unfold familyArm
    by_cases hgd : guardFamily g = true
    · rw [if_pos hgd]
      exact rankArm_prefer o g a "family" TaxonGroupName.Family hp
    · rw [if_neg hgd]
  · rw [groupNameRank_subfamily]
    unfold subfamilyArm
    by_cases hgd : guardSubfamily g = true
    · rw [if_pos hgd]
      exact rankArm_prefer o g a "subfamily" TaxonGroupName.Subfamily hp
    · rw [if_neg hgd]
  · rw [groupNameRank_genus]
    unfold genusArm
    by_cases hgd : guardGenus g = true
    · rw [if_pos hgd]
      exact rankArm_prefer o g a "genus" TaxonGroupName.Genus hp
    · rw [if_neg hgd]

/-- C5 witness: the spec's example — `Class("Sea Anemones and Corals")`
listed under `preferred_higher_ranks["subclass"]` survives a
subclass-rank ancestor unchanged. -/
theorem c5_witness :
    groupNameStep polPrefer (TaxonGroupName.Class "Sea Anemones and Corals")
      ancSubclass = TaxonGroupName.Class "Sea Anemones and Corals" :=
  c5_preferred_higher_rank_skips polPrefer
    (TaxonGroupName.Class "Sea Anemones and Corals") ancSubclass "subclass"
    rfl (by decide) (by decide)

/-- C6: at a species-rank ancestor, the group becomes
`Custom(group_names[displayString(group)])` when the display string of the
group reached so far is a key of `group_names`, and stays unchanged
otherwise. -/
theorem c6_species_rename (o : CritterCategoryConfig) (pre : List Taxon)
    (a : Taxon) (ha : a.rank = some "species") :
    groupNameChain o (pre ++ [a]) =
      match lookupAssoc o.group_names (display (groupNameChain o pre)) with
      | some v => TaxonGroupName.Custom v
      | none => groupNameChain o pre := by
  rw [groupNameChain_append]
  show groupNameStep o (groupNameChain o pre) a = _
  rw [groupNameStep_species o _ a ha]
  unfold speciesArm
  rfl

/-- C6 witness: the chain phylum→family("Dorid Nudibranchs")→species with
`group_names["Dorid Nudibranchs"] = "Nudibranchs"` yields
`Custom("Nudibranchs")`. -/
theorem c6_witness :
    groupNameChain polDorid [ancPhylum, ancFamily, ancSpecies] =
      TaxonGroupName.Custom "Nudibranchs" := by
  have h := c6_species_rename polDorid [ancPhylum, ancFamily] ancSpecies rfl
  exact h.trans (by decide)

/-- C9: `Unspecified` displays as exactly "Unknown", so a species-rank
ancestor reached with the group still `Unspecified` consults
`group_names["Unknown"]` and rewrites the result to `Custom` of the mapped
replacement when present. -/
theorem c9_unknown_display_and_rename :
    display TaxonGroupName.Unspecified = "Unknown" ∧
    ∀ (o : CritterCategoryConfig) (pre : List Taxon) (a : Taxon) (v : String),
      a.rank = some "species" →
      groupNameChain o pre = TaxonGroupName.Unspecified →
      lookupAssoc o.group_names "Unknown" = some v →
      groupNameChain o (pre ++ [a]) = TaxonGroupName.Custom v := by
  refine ⟨rfl, ?_⟩
  intro o pre a v ha hu hl
  rw [groupNameChain_append]
  show groupNameStep o (groupNameChain o pre) a = _
  rw [groupNameStep_species o _ a ha, hu]
  unfold speciesArm
  rw [show display TaxonGroupName.Unspecified = "Unknown" from rfl, hl]

/-- C9 witness: an otherwise-unclassified chain consisting of just a
species marker, under a policy mapping "Unknown" to "Wildlife", yields
`Custom("Wildlife")`. -/
theorem c9_witness :
    groupNameChain polUnknown [ancSpecies] = TaxonGroupName.Custom "Wildlife" :=
  c9_unknown_display_and_rename.2 polUnknown [] ancSpecies "Wildlife" rfl rfl (by decide)

/-! ## Cache-aside helper lemmas -/

/-- A batched remote lookup never changes the stored rows (only the call
counter). -/
theorem lookupTaxonByIds_rows (env : RemoteEnv) (st : CacheState) (ids : List Int) :
    (lookupTaxonByIds env st ids).2.rows = st.rows := by
  unfold lookupTaxonByIds
  by_cases he : ids.isEmpty = true
  · rw [if_pos he]
  · rw [if_neg he]
    cases henv : env.byIds ids <;> rfl

/-- The by-id remote lookup ends in the same state as its underlying
batched lookup. -/
theorem lookupTaxonById_state (env : RemoteEnv) (st : CacheState) (id : Int) :
    (lookupTaxonById env st id).2 = (lookupTaxonByIds env st [id]).2 := by
  unfold lookupTaxonById
  rcases h : lookupTaxonByIds env st [id] with ⟨res, st2⟩
  cases res with
  | error e => rfl
  | ok taxa =>
    show (match taxa.head? with
        | some t => (Except.ok t, st2)
        | none => (Except.error (TaxonError.NotFoundId id), st2)).2 = st2
    rcases taxa.head? with _ | t <;> rfl

/-- The by-id remote lookup never changes the stored rows. -/
theorem lookupTaxonById_rows (env : RemoteEnv) (st : CacheState) (id : Int) :
    (lookupTaxonById env st id).2.rows = st.rows := by
  rw [lookupTaxonById_state]
  exact lookupTaxonByIds_rows env st [id]

/-- The by-name remote lookup never changes the stored rows. -/
theorem lookupTaxonByName_rows (env : RemoteEnv) (st : CacheState) (name : String) :
    (lookupTaxonByName env st name).2.rows = st.rows := by
  unfold lookupTaxonByName
  cases henv : env.byName name with
  | error e => rfl
  | ok taxa =>
    show (match taxa.head? with
        | some t => (Except.ok t, { st with remoteCalls := st.remoteCalls + 1 })
        | none => (Except.error (TaxonError.NotFoundName name),
            { st with remoteCalls := st.remoteCalls + 1 })).2.rows = st.rows
    rcases taxa.head? with _ | t <;> rfl

/-- An empty `cachedTaxonById` lookup means no row carries the id. -/
theorem cachedTaxonById_none (st : CacheState) (id : Int)
    (h : cachedTaxonById st id = none) :
    st.rows.find? (fun r => r.taxon_id == id) = none := by
  unfold cachedTaxonById at h
  cases hf : st.rows.find? (fun r => r.taxon_id == id)
  · rfl
  · rw [hf] at h
    simp at h

/-- An empty `cachedTaxonByName` lookup means no row carries the name. -/
theorem cachedTaxonByName_none (st : CacheState) (name : String)
    (h : cachedTaxonByName st name = none) :
    st.rows.find? (fun r => r.matched_name == name) = none := by
  unfold cachedTaxonByName at h
  cases hf : st.rows.find? (fun r => r.matched_name == name)
  · rfl
  · rw [hf] at h
    simp at h

/-- Updating in place the rows hit by `q` with a row satisfying `p`, when
no original row satisfies `p`, makes the first updated row the first `p`
match. -/
theorem find?_map_ite (rows : List CacheRow) (new : CacheRow)
    (p q : CacheRow → Bool) (hnone : ∀ r ∈ rows, ¬ p r = true)
    (hnew : p new = true) (hany : rows.any q = true) :
    (rows.map (fun r => if q r then new else r)).find? p = some new := by
  induction rows with
  | nil => simp at hany
  | cons r rs ih =>
    simp only [List.map_cons]
    by_cases hq : q r = true
    · rw [if_pos hq, List.find?_cons_of_pos _ hnew]
    · rw [if_neg hq, List.find?_cons_of_neg _ (hnone r (List.mem_cons_self r rs))]
      rw [List.any_cons] at hany
      rcases Bool.or_eq_true_iff.mp hany with hqr | hrs
      · exact absurd hqr hq
      · exact ih (fun x hx => hnone x (List.mem_cons_of_mem r hx)) hrs

/-- After a by-id miss, the upsert appends the fetched taxon and a by-id
probe finds exactly it. -/
theorem find?_upsert_by_id (rows : List CacheRow) (t : Taxon) (mn : String)
    (id : Int) (hid : t.id = id)
    (hnone : rows.find? (fun r => r.taxon_id == id) = none) :
    (upsertRow rows t mn).find? (fun r => r.taxon_id == id) =
      some ⟨t.id, mn, t⟩ := by
  unfold upsertRow
  have hany : rows.any (fun r => r.taxon_id == t.id) = false := by
    rw [List.any_eq_false]
    intro r hr
    rw [hid]
    exact List.find?_eq_none.mp hnone r hr
  rw [hany, if_neg Bool.false_ne_true, List.find?_append, hnone]
  simp [List.find?, hid]

/-- After a by-name miss, the upsert makes the queried name findable and
bound to the fetched taxon (whether it inserted or overwrote a
conflicting id). -/
theorem find?_upsert_by_name (rows : List CacheRow) (t : Taxon) (name : String)
    (hnone : rows.find? (fun r => r.matched_name == name) = none) :
    (upsertRow rows t name).find? (fun r => r.matched_name == name) =
      some ⟨t.id, name, t⟩ := by
  unfold upsertRow
  by_cases hany : rows.any (fun r => r.taxon_id == t.id) = true
  · rw [if_pos hany]
    exact find?_map_ite rows ⟨t.id, name, t⟩ _ _
      (List.find?_eq_none.mp hnone) (beq_self_eq_true name) hany
  · rw [if_neg hany, List.find?_append, hnone]
    simp [List.find?]

/-- Every element of `dedupAcc seen l` comes from `l`. -/
theorem dedupAcc_mem (seen l : List Int) (x : Int) (hx : x ∈ dedupAcc seen l) :
    x ∈ l := by
  induction l generalizing seen with
  | nil => simp [dedupAcc] at hx
  | cons y ys ih =>
    unfold dedupAcc at hx
    by_cases hy : seen.contains y = true
    · rw [if_pos hy] at hx
      exact List.mem_cons_of_mem y (ih seen hx)
    · rw [if_neg hy] at hx
      rcases List.mem_cons.mp hx with rfl | hx2
      · exact List.mem_cons_self x ys
      · exact List.mem_cons_of_mem y (ih (y :: seen) hx2)

/-- Reading back an empty id list yields no taxa. -/
theorem readBack_nil (st : CacheState) : readBack st [] = [] := by
  unfold readBack
  rw [List.filter_eq_nil_iff.mpr (fun a _ => by simp)]
  rfl

/-- C2 counterexample: `get_taxon_by_ids` has no offline mode — on an
empty cache, requesting one id issues a remote call (the call counter
becomes 1) and succeeds instead of failing with `OfflineMode`. -/
theorem c2_counterexample :
    (getTaxonByIds envStub cacheEmpty [1]).2.remoteCalls = 1 ∧
    (getTaxonByIds envStub cacheEmpty [1]).1 = .ok [taxMollusca] ∧
    (getTaxonByIds envStub cacheEmpty [1]).1 ≠ .error .OfflineMode := by
  refine ⟨rfl, rfl, ?_⟩
  intro hcontra
  rw [show (getTaxonByIds envStub cacheEmpty [1]).1 = Except.ok [taxMollusca] from rfl] at hcontra
  exact Except.noConfusion hcontra

/-- C2 (amended): `get_taxon_by_id` and `get_taxon_by_name` — the two
operations that take the `offline` flag — fail with `OfflineMode` on a
cache miss with `offline = true`, touching neither the remote client nor
the rate limiter and leaving the state unchanged; `get_taxon_by_ids`
takes no `offline` flag. -/
theorem c2_offline_miss_fails_without_remote (env : RemoteEnv) (st : CacheState)
    (id : Int) (name : String) :
    (cachedTaxonById st id = none →
      getTaxonById env st id true = (.error .OfflineMode, st)) ∧
    (cachedTaxonByName st name = none →
      getTaxonByName env st name true = (.error .OfflineMode, st)) := by
  constructor
  · intro h
    unfold getTaxonById
    rw [h]
    rfl
  · intro h
    unfold getTaxonByName
    rw [h]
    rfl

/-- C2 witness: both offline-miss failures on the empty cache. -/
theorem c2_witness :
    getTaxonById envStub cacheEmpty 1 true = (.error .OfflineMode, cacheEmpty) ∧
    getTaxonByName envStub cacheEmpty "Chromodoris annae" true =
      (.error .OfflineMode, cacheEmpty) :=
  ⟨(c2_offline_miss_fails_without_remote envStub cacheEmpty 1 "Chromodoris annae").1 rfl,
   (c2_offline_miss_fails_without_remote envStub cacheEmpty 1 "Chromodoris annae").2 rfl⟩

/-- C7: after a successful lookup, a repeat lookup with the same key is a
pure cache hit: it returns the same taxon and the identical state
(no remote call, no rate-limiter interaction, no cache write).  For the
by-id path the remote is assumed well-behaved for the queried id: the
taxon fetched for `id` carries `id` itself, which the real endpoint
guarantees. -/
theorem c7_cache_aside_invariant (env : RemoteEnv) (st : CacheState) :
    (∀ (id : Int) (off off2 : Bool) (t : Taxon) (st2 : CacheState),
      getTaxonById env st id off = (.ok t, st2) → t.id = id →
      getTaxonById env st2 id off2 = (.ok t, st2)) ∧
    (∀ (name : String) (off off2 : Bool) (t : Taxon) (st2 : CacheState),
      getTaxonByName env st name off = (.ok t, st2) →
      getTaxonByName env st2 name off2 = (.ok t, st2)) := by
  constructor
  · intro id off off2 t st2 h hid
    unfold getTaxonById at h
    split at h
    · rename_i t0 heq
      rw [Prod.mk.injEq, Except.ok.injEq] at h
      obtain ⟨h1, h2⟩ := h
      subst h1
      subst h2
      unfold getTaxonById
      rw [heq]
    · rename_i heq
      split at h
      · simp at h
      · split at h
        · rename_i t1 st1 heq2
          split at h
          · rename_i st3 heq3
            rw [Prod.mk.injEq, Except.ok.injEq] at h
            obtain ⟨h1, h2⟩ := h
            subst h1
            subst h2
            have hrows : st1.rows = st.rows := by
              rw [show st1 = (lookupTaxonById env st id).2 from by rw [heq2]]
              exact lookupTaxonById_rows env st id
            unfold cacheTaxon at heq3
            rcases hname : t1.name with _ | nm
            · rw [hname] at heq3
              simp [Option.or] at heq3
            · rw [hname] at heq3
              simp only [Option.or, Except.ok.injEq] at heq3
              unfold getTaxonById cachedTaxonById
              rw [show st3.rows = upsertRow st1.rows t1 nm from by rw [← heq3]]
              rw [hrows, find?_upsert_by_id st.rows t1 nm id hid
                    (cachedTaxonById_none st id heq)]
              rfl
          · rename_i e heq3
            simp at h
        · rename_i e st1 heq2
          simp at h
  · intro name off off2 t st2 h
    unfold getTaxonByName at h
    split at h
    · rename_i t0 heq
      rw [Prod.mk.injEq, Except.ok.injEq] at h
      obtain ⟨h1, h2⟩ := h
      subst h1
      subst h2
      unfold getTaxonByName
      rw [heq]
    · rename_i heq
      split at h
      · simp at h
      · split at h
        · rename_i t1 st1 heq2
          split at h
          · rename_i st3 heq3
            rw [Prod.mk.injEq, Except.ok.injEq] at h
            obtain ⟨h1, h2⟩ := h
            subst h1
            subst h2
            have hrows : st1.rows = st.rows := by
              rw [show st1 = (lookupTaxonByName env st name).2 from by rw [heq2]]
              exact lookupTaxonByName_rows env st name
            unfold cacheTaxon at heq3
            simp only [Option.or, Except.ok.injEq] at heq3
            unfold getTaxonByName cachedTaxonByName
            rw [show st3.rows = upsertRow st1.rows t1 name from by rw [← heq3]]
            rw [hrows, find?_upsert_by_name st.rows t1 name
                  (cachedTaxonByName_none st name heq)]
            rfl
          · rename_i e heq3
            simp at h
        · rename_i e st1 heq2
          simp at h

/-- C7 witness: concrete second lookups after a first fetch through the
stub remote hit the cache and leave the state unchanged. -/
theorem c7_witness :
    getTaxonById envStub cacheAfterId 1 false = (.ok taxMollusca, cacheAfterId) ∧
    getTaxonByName envStub cacheAfterName "Chromodoris annae" false =
      (.ok taxMollusca, cacheAfterName) :=
  ⟨(c7_cache_aside_invariant envStub cacheEmpty).1 1 false false taxMollusca
      cacheAfterId rfl rfl,
   (c7_cache_aside_invariant envStub cacheEmpty).2 "Chromodoris annae" false false
      taxMollusca cacheAfterName rfl⟩

/-- C10: `get_taxon_by_ids []` succeeds with the empty list and an
unchanged state (zero remote calls), while the underlying
`lookup_taxon_by_ids` rejects an empty id set with `InvalidArgument`; and
whenever every requested id is already cached, the whole operation is a
pure read-back with no state change (the remote path runs only when at
least one id is missing). -/
theorem c10_empty_and_cached_ids :
    (∀ (env : RemoteEnv) (st : CacheState),
      getTaxonByIds env st [] = (.ok [], st)) ∧
    (∀ (env : RemoteEnv) (st : CacheState),
      lookupTaxonByIds env st [] = (.error .InvalidArgument, st)) ∧
    (∀ (env : RemoteEnv) (st : CacheState) (ids : List Int),
      (∀ i ∈ ids, (cachedTaxonById st i).isSome = true) →
      getTaxonByIds env st ids = (.ok (readBack st ids), st)) := by
  refine ⟨?_, ?_, ?_⟩
  · intro env st
    unfold getTaxonByIds
    simp only [readBack_nil]
    rfl
  · intro env st
    rfl
  · intro env st ids hall
    have hmiss : missingIds st ids = [] := by
      unfold missingIds
      rw [List.filter_eq_nil_iff]
      intro i hi
      have hml : i ∈ ids := dedupAcc_mem [] ids i hi
      have hsome := hall i hml
      rcases hfind : st.rows.find? (fun r => r.taxon_id == i) with _ | r
      · unfold cachedTaxonById at hsome
        rw [hfind] at hsome
        simp at hsome
      · have hmem := List.mem_of_find?_eq_some hfind
        have hpred : r.taxon_id = i := by
          have := List.find?_some hfind
          exact eq_of_beq this
        have hin : r.taxon_id ∈ cachedIds st ids := by
          unfold cachedIds
          exact List.mem_map.mpr
            ⟨r, List.mem_filter.mpr ⟨hmem, by rw [hpred]; exact List.elem_iff.mpr hml⟩, rfl⟩
        rw [hpred] at hin
        simpa using hin
    unfold getTaxonByIds
    rw [hmiss]
    rfl

/-- C10 witness: one cached id — a pure read-back with no state change. -/
theorem c10_witness :
    getTaxonByIds envStub cacheAfterId [1] = (.ok [taxMollusca], cacheAfterId) :=
  c10_empty_and_cached_ids.2.2 envStub cacheAfterId [1] (by decide)

/-- C8: on a verification-cache miss, an upstream response with no names
at all makes `normalize` fall back to the original input as a success,
while a first name carrying an empty match-results list is the hard
`InconsistentUpstreamResponse` error; either way exactly one upstream
call is made. -/
theorem c8_miss_fallback_and_inconsistent
    (env : String → Except String VerificationResponse) (st : GnState)
    (name : String) (resp : VerificationResponse)
    (hc : gnCachedFresh st name = none) (henv : env name = .ok resp) :
    (resp.names = [] →
      gnNormalize env st name = (.ok name, { st with remoteCalls := st.remoteCalls + 1 })) ∧
    (∀ rec rest, resp.names = rec :: rest → rec.results = [] →
      gnNormalize env st name =
        (.error .InconsistentUpstreamResponse,
          { st with remoteCalls := st.remoteCalls + 1 })) := by
  constructor
  · intro hn
    unfold gnNormalize
    rw [hc, henv]
    show gnHandleResponse { st with remoteCalls := st.remoteCalls + 1 } name resp =
      (Except.ok name, { st with remoteCalls := st.remoteCalls + 1 })
    unfold gnHandleResponse
    rw [hn]
    rfl
  · intro rec rest hn hres
    unfold gnNormalize
    rw [hc, henv]
    show gnHandleResponse { st with remoteCalls := st.remoteCalls + 1 } name resp =
      (Except.error GnError.InconsistentUpstreamResponse,
        { st with remoteCalls := st.remoteCalls + 1 })
    unfold gnHandleResponse
    rw [hn]
    show gnHandleRecord { st with remoteCalls := st.remoteCalls + 1 } name rec =
      (Except.error GnError.InconsistentUpstreamResponse,
        { st with remoteCalls := st.remoteCalls + 1 })
    unfold gnHandleRecord
    rw [hres]
    rfl

/-- C8 witness: both upstream shapes at a concrete name on the empty
cache. -/
theorem c8_witness :
    gnNormalize gnEnvNoNames gnEmpty "Chromodoris annae" =
      (.ok "Chromodoris annae", (⟨[], 0, 1⟩ : GnState)) ∧
    gnNormalize gnEnvEmptyResults gnEmpty "Chromodoris annae" =
      (.error .InconsistentUpstreamResponse, (⟨[], 0, 1⟩ : GnState)) :=
  ⟨(c8_miss_fallback_and_inconsistent gnEnvNoNames gnEmpty "Chromodoris annae"
      ⟨[]⟩ rfl rfl).1 rfl,
   (c8_miss_fallback_and_inconsistent gnEnvEmptyResults gnEmpty "Chromodoris annae"
      ⟨[⟨[]⟩]⟩ rfl rfl).2 ⟨[]⟩ [] rfl rfl⟩

end MacdiveToolbox
